import Mathlib

/-!
Verification development for the EasyDispatch collector core
(`collector/dmr_monitor.py` and `collector/api_client.py`).

The Python modules are shallowly embedded below:
* `dmr_monitor.py`: each regex in `DMRMonitor.PATTERNS` becomes a
  deterministic matcher over `List Char` (the patterns never need regex
  backtracking: every `\s+`/`\d+` is followed by a character of a disjoint
  class, and the lazy `.*?` pieces become a nearest-occurrence scan).
  `_process_line`, the handler methods and the `current_transmissions`
  dict become a step function over an association list that reproduces
  Python dict semantics (insertion order, replace-in-place on key reuse).
* `api_client.py`: Python values that flow through the payload dicts
  become the dynamic type `PyVal` (so that `str.strftime` attribute
  errors are representable), the in-memory `Queue` plus the queue file
  become a `QState` pair of lists, and `_make_request`'s network loop is
  parametrised by a function from attempt index to outcome.
-/

namespace EasyDispatch

/-! ## Datetime values (`datetime.datetime` as used by the modules) -/

/-- A `datetime.datetime` value: year, month, day, hour, minute, second,
microsecond. -/
structure Dtm where
  y : Nat
  mo : Nat
  d : Nat
  h : Nat
  mi : Nat
  s : Nat
  us : Nat
deriving DecidableEq

/-- Gregorian leap-year rule (as in Python's `calendar`/`datetime`). -/
def isLeap (y : Nat) : Bool :=
  (y % 4 == 0 && y % 100 != 0) || y % 400 == 0

/-- Days in a month, mirroring `datetime`'s validation table. -/
def daysInMonth (y mo : Nat) : Nat :=
  if mo = 1 then 31
  else if mo = 2 then (if isLeap y then 29 else 28)
  else if mo = 3 then 31
  else if mo = 4 then 30
  else if mo = 5 then 31
  else if mo = 6 then 30
  else if mo = 7 then 31
  else if mo = 8 then 31
  else if mo = 9 then 30
  else if mo = 10 then 31
  else if mo = 11 then 30
  else if mo = 12 then 31
  else 0

/-- Days in the years before year `y` (proleptic Gregorian, year 1 first),
as in `datetime.date.toordinal`. -/
def daysBeforeYear (y : Nat) : Nat :=
  (y - 1) * 365 + (y - 1) / 4 - (y - 1) / 100 + (y - 1) / 400

/-- Days in the months of year `y` strictly before month `mo`. -/
def daysBeforeMonth (y mo : Nat) : Nat :=
  (List.range mo).foldl (fun acc m => if 1 ≤ m then acc + daysInMonth y m else acc) 0

/-- Proleptic-Gregorian ordinal of the date part (0001-01-01 has ordinal 1),
mirroring `datetime.date.toordinal`. -/
def dtmOrdinal (t : Dtm) : Nat :=
  daysBeforeYear t.y + daysBeforeMonth t.y t.mo + t.d

/-- Microseconds on the absolute timeline; differences of this value are
what `datetime` subtraction (`timedelta`) measures. -/
def dtmMicros (t : Dtm) : Nat :=
  ((dtmOrdinal t * 24 + t.h) * 60 + t.mi) * 60 * 1000000 + t.s * 1000000 + t.us

/-! ## Timestamp strings captured by the log regexes

The timestamp group of the voice-header/voice-end/data-header/emergency
patterns is `\d{4}-\d{2}-\d{2}\s+\d{2}:\d{2}:\d{2}\.\d{3}`, so a captured
timestamp is fully described by its seven digit fields.  `_parse_timestamp`
feeds the captured text to `datetime.strptime('%Y-%m-%d %H:%M:%S.%f')`
(whose format whitespace matches any whitespace run, so the captured
`\s+` never makes parsing fail) and, on `ValueError`, falls back to
`datetime.now()`. -/

/-- The digit fields of a captured log timestamp (`ms` is the 3-digit
fractional group of the `\.\d{3}` part). -/
structure TS where
  y : Nat
  mo : Nat
  d : Nat
  h : Nat
  mi : Nat
  s : Nat
  ms : Nat
deriving DecidableEq

/-- Whether `datetime.strptime` accepts the captured fields: the shape is
already guaranteed by the regex, so only the range checks performed by the
`datetime` constructor remain. -/
def tsValid (t : TS) : Bool :=
  1 ≤ t.y && t.y ≤ 9999 && 1 ≤ t.mo && t.mo ≤ 12 &&
  1 ≤ t.d && t.d ≤ daysInMonth t.y t.mo &&
  t.h ≤ 23 && t.mi ≤ 59 && t.s ≤ 59

/-- `_parse_timestamp`: a valid timestamp becomes the corresponding
`datetime` (`%f` right-pads the 3 captured digits to microseconds); an
invalid one falls back to the current time `now`. -/
def resolveTs (now : Dtm) (t : TS) : Dtm :=
  if tsValid t then ⟨t.y, t.mo, t.d, t.h, t.mi, t.s, t.ms * 1000⟩ else now

/-! ## Character-level matchers for `DMRMonitor.PATTERNS` -/

/-- `\s` (the line has already been `strip()`ped, but inner whitespace runs
remain possible). -/
def isWS (c : Char) : Bool :=
  c = ' ' || c = '\t' || c = '\n' || c = '\r' || c = '\x0b' || c = '\x0c'

/-- Numeric value of an ASCII digit. -/
def digitVal (c : Char) : Nat := c.toNat - 48

/-- Drop a whitespace run. -/
def dropWS : List Char → List Char
  | [] => []
  | c :: cs => if isWS c then dropWS cs else c :: cs

/-- `\s+`: at least one whitespace character, consumed greedily. -/
def ws1 : List Char → Option (List Char)
  | [] => none
  | c :: cs => if isWS c then some (dropWS cs) else none

/-- Match a literal string (a regex fragment with no metacharacters). -/
def dropLit : List Char → List Char → Option (List Char)
  | [], cs => some cs
  | _ :: _, [] => none
  | p :: ps, c :: cs => if c = p then dropLit ps cs else none

/-- Greedily accumulate further digits (value and count). -/
def takeDigits : List Char → Nat → Nat → Nat × Nat × List Char
  | [], acc, k => (acc, k, [])
  | c :: cs, acc, k =>
      if c.isDigit then takeDigits cs (acc * 10 + digitVal c) (k + 1) else (acc, k, c :: cs)

/-- `\d+`: at least one digit, consumed greedily; returns value and digit
count (the count feeds `float()`'s decimal semantics). -/
def digitsCnt : List Char → Option (Nat × Nat × List Char)
  | [] => none
  | c :: cs => if c.isDigit then some (takeDigits cs (digitVal c) 1) else none

/-- `\d+` where only the integer value matters (`int()` of the group). -/
def digits1 (cs : List Char) : Option (Nat × List Char) :=
  match digitsCnt cs with
  | some (n, _, rest) => some (n, rest)
  | none => none

/-- `\d{n}`: exactly `n` digits. -/
def digitsNAux : Nat → Nat → List Char → Option (Nat × List Char)
  | 0, acc, cs => some (acc, cs)
  | _ + 1, _, [] => none
  | n + 1, acc, c :: cs =>
      if c.isDigit then digitsNAux n (acc * 10 + digitVal c) cs else none

def digitsN (n : Nat) (cs : List Char) : Option (Nat × List Char) :=
  digitsNAux n 0 cs

/-- Lazy `.*?` followed by a literal: consume the shortest (possibly empty)
run of non-newline characters after which the literal matches. -/
def scanLit (pat : List Char) : List Char → Option (List Char)
  | [] => dropLit pat []
  | c :: cs =>
      match dropLit pat (c :: cs) with
      | some rest => some rest
      | none => if c = '\n' then none else scanLit pat cs

/-- The timestamp fragment
`\d{4}-\d{2}-\d{2}\s+\d{2}:\d{2}:\d{2}\.\d{3}` shared by four patterns. -/
def matchTsAt (cs : List Char) : Option (TS × List Char) := do
  let (y, cs) ← digitsN 4 cs
  let cs ← dropLit "-".toList cs
  let (mo, cs) ← digitsN 2 cs
  let cs ← dropLit "-".toList cs
  let (d, cs) ← digitsN 2 cs
  let cs ← ws1 cs
  let (h, cs) ← digitsN 2 cs
  let cs ← dropLit ":".toList cs
  let (mi, cs) ← digitsN 2 cs
  let cs ← dropLit ":".toList cs
  let (s, cs) ← digitsN 2 cs
  let cs ← dropLit ".".toList cs
  let (ms, cs) ← digitsN 3 cs
  pure (⟨y, mo, d, h, mi, s, ms⟩, cs)

/-- `(\d+\.\d+)` captured and then converted by `float()`: the patterns
only admit plain decimal digit strings, for which `float()` yields exactly
integer-part plus fraction. -/
def matchRatAt (cs : List Char) : Option (Rat × List Char) := do
  let (a, _, cs) ← digitsCnt cs
  let cs ← dropLit ".".toList cs
  let (b, k, cs) ← digitsCnt cs
  pure (mkRat (a * 10 ^ k + b) (10 ^ k), cs)

/-- `(-?\d+)` captured and converted by `int()`. -/
def matchIntAt (cs : List Char) : Option (Int × List Char) :=
  match cs with
  | '-' :: rest =>
      match digits1 rest with
      | some (n, cs2) => some (-(n : Int), cs2)
      | none => none
  | _ =>
      match digits1 cs with
      | some (n, cs2) => some ((n : Int), cs2)
      | none => none

/-- `(TG|PC)`: the two destination-kind tokens. -/
inductive DestT
  | tg
  | pc
deriving DecidableEq

def matchDest (cs : List Char) : Option (DestT × List Char) :=
  match dropLit "TG".toList cs with
  | some rest => some (DestT.tg, rest)
  | none =>
      match dropLit "PC".toList cs with
      | some rest => some (DestT.pc, rest)
      | none => none

/-- Try a matcher at every start position, leftmost first (`re.search`). -/
def searchWith {α : Type} (m : List Char → Option α) : List Char → Option α
  | [] => m []
  | c :: cs =>
      match m (c :: cs) with
      | some r => some r
      | none => searchWith m cs

/-! ## The classified events (`LogEvent` of the spec)

`_process_line` has no separate event value; each handler receives the
regex match.  The events below carry exactly the converted captures each
handler extracts (`int()` on `\d+` groups — always a digit string, so the
conversion is total — and `float()` on `\d+\.\d+` groups). -/

inductive Event
  | vstart (ts : TS) (slot radio : Nat) (destT : DestT) (destId : Nat)
  | vend (ts : TS) (slot : Nat) (dur ber : Rat)
  | sig (slot : Nat) (rssi : Int)
  | dhead (ts : TS) (slot radio : Nat) (destT : DestT) (destId : Nat)
  | emerg (ts : TS) (slot : Nat)
deriving DecidableEq

/-- `PATTERNS['voice_header']`:
`M:\s+(ts)\s+DMR Slot (\d+),\s+received voice header from (\d+) to (TG|PC) (\d+)` -/
def matchVoiceHeaderAt (cs : List Char) : Option Event := do
  let cs ← dropLit "M:".toList cs
  let cs ← ws1 cs
  let (ts, cs) ← matchTsAt cs
  let cs ← ws1 cs
  let cs ← dropLit "DMR Slot ".toList cs
  let (slot, cs) ← digits1 cs
  let cs ← dropLit ",".toList cs
  let cs ← ws1 cs
  let cs ← dropLit "received voice header from ".toList cs
  let (radio, cs) ← digits1 cs
  let cs ← dropLit " to ".toList cs
  let (dt, cs) ← matchDest cs
  let cs ← dropLit " ".toList cs
  let (destId, _) ← digits1 cs
  pure (Event.vstart ts slot radio dt destId)

/-- `PATTERNS['voice_end']`:
`M:\s+(ts)\s+DMR Slot (\d+),\s+received voice end of transmission,\s+(\d+\.\d+)s,\s+BER: (\d+\.\d+)%` -/
def matchVoiceEndAt (cs : List Char) : Option Event := do
  let cs ← dropLit "M:".toList cs
  let cs ← ws1 cs
  let (ts, cs) ← matchTsAt cs
  let cs ← ws1 cs
  let cs ← dropLit "DMR Slot ".toList cs
  let (slot, cs) ← digits1 cs
  let cs ← dropLit ",".toList cs
  let cs ← ws1 cs
  let cs ← dropLit "received voice end of transmission,".toList cs
  let cs ← ws1 cs
  let (dur, cs) ← matchRatAt cs
  let cs ← dropLit "s,".toList cs
  let cs ← ws1 cs
  let cs ← dropLit "BER: ".toList cs
  let (ber, cs) ← matchRatAt cs
  let _ ← dropLit "%".toList cs
  pure (Event.vend ts slot dur ber)

/-- `PATTERNS['rssi']`: `DMR Slot (\d+),\s+.*?RSSI:\s+(-?\d+)` -/
def matchRssiAt (cs : List Char) : Option Event := do
  let cs ← dropLit "DMR Slot ".toList cs
  let (slot, cs) ← digits1 cs
  let cs ← dropLit ",".toList cs
  let cs ← ws1 cs
  let cs ← scanLit "RSSI:".toList cs
  let cs ← ws1 cs
  let (v, _) ← matchIntAt cs
  pure (Event.sig slot v)

/-- `PATTERNS['data_header']`:
`M:\s+(ts)\s+DMR Slot (\d+),\s+received data header from (\d+) to (TG|PC) (\d+)` -/
def matchDataHeaderAt (cs : List Char) : Option Event := do
  let cs ← dropLit "M:".toList cs
  let cs ← ws1 cs
  let (ts, cs) ← matchTsAt cs
  let cs ← ws1 cs
  let cs ← dropLit "DMR Slot ".toList cs
  let (slot, cs) ← digits1 cs
  let cs ← dropLit ",".toList cs
  let cs ← ws1 cs
  let cs ← dropLit "received data header from ".toList cs
  let (radio, cs) ← digits1 cs
  let cs ← dropLit " to ".toList cs
  let (dt, cs) ← matchDest cs
  let cs ← dropLit " ".toList cs
  let (destId, _) ← digits1 cs
  pure (Event.dhead ts slot radio dt destId)

/-- `PATTERNS['emergency']`: `M:\s+(ts)\s+DMR Slot (\d+),.*?Emergency` -/
def matchEmergencyAt (cs : List Char) : Option Event := do
  let cs ← dropLit "M:".toList cs
  let cs ← ws1 cs
  let (ts, cs) ← matchTsAt cs
  let cs ← ws1 cs
  let cs ← dropLit "DMR Slot ".toList cs
  let (slot, cs) ← digits1 cs
  let cs ← dropLit ",".toList cs
  let _ ← scanLit "Emergency".toList cs
  pure (Event.emerg ts slot)

/-- The pattern cascade of `_process_line`: first matching pattern wins,
in source order (voice header, voice end, rssi, data header, emergency;
`PATTERNS['gps_data']` is defined in the source but never consulted by
`_process_line`). -/
def classifyLine (line : String) : Option Event :=
  let cs := line.toList
  match searchWith matchVoiceHeaderAt cs with
  | some e => some e
  | none =>
  match searchWith matchVoiceEndAt cs with
  | some e => some e
  | none =>
  match searchWith matchRssiAt cs with
  | some e => some e
  | none =>
  match searchWith matchDataHeaderAt cs with
  | some e => some e
  | none =>
  match searchWith matchEmergencyAt cs with
  | some e => some e
  | none => none

/-! ## The transmission correlator (`current_transmissions` and handlers) -/

/-- One transmission dict as built by `_handle_voice_header` (`ty` is the
`'type'` key, always `'voice'` for stored entries; `endTime`/`dur` are the
keys added by `_handle_voice_end`). -/
structure Trans where
  ty : String
  slot : Nat
  radio : Nat
  destT : DestT
  destId : Nat
  startTime : Dtm
  rssi : Option Int
  ber : Option Rat
  endTime : Option Dtm
  dur : Option Rat
deriving DecidableEq

/-- The callbacks the monitor fires (`transmission_start`,
`transmission_end`, `data_transmission`, `emergency`).  The Python
callback receives the live dict; here each callback records a snapshot of
the dict at call time. -/
inductive Cb
  | tstart (t : Trans)
  | tend (t : Trans)
  | tdata (ts : Dtm) (slot radio : Nat) (destT : DestT) (destId : Nat)
  | temerg (ts : Dtm) (slot : Nat)
deriving DecidableEq

/-- Monitor state: `current_transmissions` (a Python dict keyed by the
string `f"{slot}_{radio_id}"`; the key is modelled as the pair, the
formatting being injective) plus the chronological list of callbacks. -/
structure CState where
  openT : List ((Nat × Nat) × Trans)
  out : List Cb
deriving DecidableEq

def initCState : CState := ⟨[], []⟩

/-- Python-dict assignment `d[key] = v`: replace in place if the key is
present (keeping its insertion position), otherwise append. -/
def dictInsert (k : Nat × Nat) (v : Trans) :
    List ((Nat × Nat) × Trans) → List ((Nat × Nat) × Trans)
  | [] => [(k, v)]
  | (k2, v2) :: rest =>
      if k2 = k then (k, v) :: rest else (k2, v2) :: dictInsert k v rest

/-- The mutation `_handle_voice_end` applies before emitting: set
`end_time`, `duration`, `ber`. -/
def closeTr (now : Dtm) (ts : TS) (dur ber : Rat) (t : Trans) : Trans :=
  { t with endTime := some (resolveTs now ts), dur := some dur, ber := some ber }

/-- `_handle_voice_end`'s scan over `list(current_transmissions.items())`:
find the first entry with matching slot and `type == 'voice'`, close it,
and delete it (`break` after the first hit). -/
def endScan (now : Dtm) (ts : TS) (dur ber : Rat) (slot : Nat) :
    List ((Nat × Nat) × Trans) → Option (Trans × List ((Nat × Nat) × Trans))
  | [] => none
  | (k, t) :: rest =>
      if t.slot = slot ∧ t.ty = "voice" then
        some (closeTr now ts dur ber t, rest)
      else
        match endScan now ts dur ber slot rest with
        | some (c, rest2) => some (c, (k, t) :: rest2)
        | none => none

/-- `_handle_rssi`'s scan over `current_transmissions.values()`: update the
first slot-matching entry's `rssi` and `break`. -/
def updFirst (slot : Nat) (v : Int) :
    List ((Nat × Nat) × Trans) → List ((Nat × Nat) × Trans)
  | [] => []
  | (k, t) :: rest =>
      if t.slot = slot then (k, { t with rssi := some v }) :: rest
      else (k, t) :: updFirst slot v rest

/-- The transmission dict created by `_handle_voice_header`. -/
def mkOpen (now : Dtm) (ts : TS) (slot radio : Nat) (dt : DestT) (destId : Nat) : Trans :=
  ⟨"voice", slot, radio, dt, destId, resolveTs now ts, none, none, none, none⟩

/-- One handler dispatch.  `now` stands for `datetime.now()` (used only by
the `_parse_timestamp` fallback). -/
def stepEvent (now : Dtm) (s : CState) : Event → CState
  | .vstart ts slot radio dt destId =>
      let t := mkOpen now ts slot radio dt destId
      ⟨dictInsert (slot, radio) t s.openT, s.out ++ [Cb.tstart t]⟩
  | .vend ts slot dur ber =>
      match endScan now ts dur ber slot s.openT with
      | some (c, rest) => ⟨rest, s.out ++ [Cb.tend c]⟩
      | none => s
  | .sig slot v => ⟨updFirst slot v s.openT, s.out⟩
  | .dhead ts slot radio dt destId =>
      ⟨s.openT, s.out ++ [Cb.tdata (resolveTs now ts) slot radio dt destId]⟩
  | .emerg ts slot =>
      ⟨s.openT, s.out ++ [Cb.temerg (resolveTs now ts) slot]⟩

/-- `_process_line`: classify, then dispatch (a line matching no pattern
falls through all checks and leaves the state untouched). -/
def processLine (now : Dtm) (s : CState) (line : String) : CState :=
  match classifyLine line with
  | some e => stepEvent now s e
  | none => s

/-- Feed a sequence of (already `strip()`ped) lines through the monitor. -/
def runLines (now : Dtm) (lines : List String) : CState :=
  lines.foldl (processLine now) initCState

/-- Feed a sequence of classified events through the handlers. -/
def stepEvents (now : Dtm) (s : CState) (es : List Event) : CState :=
  es.foldl (stepEvent now) s

/-- The finalized transmissions on a given slot among the callbacks, in
emission order. -/
def closedOn (slot : Nat) (out : List Cb) : List Trans :=
  out.filterMap (fun c =>
    match c with
    | .tend t => if t.slot = slot then some t else none
    | _ => none)

/-- All finalized transmissions among the callbacks. -/
def closedAll (out : List Cb) : List Trans :=
  out.filterMap (fun c =>
    match c with
    | .tend t => some t
    | _ => none)

/-- Python `dict` lookup on the model. -/
def dlookup (k : Nat × Nat) (l : List ((Nat × Nat) × Trans)) : Option Trans :=
  (l.find? (fun p => p.1 = k)).map Prod.snd

/-! ## The delivery client and persistent queue store (`api_client.py`)

Python values flowing through the payload dicts are dynamically typed;
`PyVal` covers the shapes that actually occur (None, str, int, float,
datetime).  The in-memory `Queue` is a FIFO list; the queue file's
content is a second list.  `_save_offline_queue` drains the queue into a
list, restores it in the same order, and rewrites the file with the full
snapshot, so on its success path it amounts to `disk := memory`
(the `except` arm for storage failure is outside the modelled claims).
Network behaviour is a parameter `outcomes : Nat → Outcome` giving the
result of each attempt of one `_make_request` call. -/

inductive PyVal
  | vnone
  | vstr (s : String)
  | vint (n : Int)
  | vrat (q : Rat)
  | vdt (d : Dtm)
deriving DecidableEq

/-- Python truthiness for the values above (`if dt:`). -/
def truthy : PyVal → Bool
  | .vnone => false
  | .vstr s => s ≠ ""
  | .vint n => n ≠ 0
  | .vrat q => q ≠ 0
  | .vdt _ => true

/-- A payload dict (insertion-ordered, keys unique by construction). -/
def Dict := List (String × PyVal)
deriving instance DecidableEq for Dict

/-- `d.get(k)`: the stored value, or None when absent. -/
def dget (d : Dict) (k : String) : PyVal :=
  match d.find? (fun p => p.1 = k) with
  | some p => p.2
  | none => PyVal.vnone

/-- Zero-padded decimal rendering used by `strftime`. -/
def padN (k n : Nat) : String :=
  let s := toString n
  String.mk (List.replicate (k - s.length) '0') ++ s

/-- `datetime.strftime('%Y-%m-%d %H:%M:%S')`. -/
def fmtDtm (d : Dtm) : String :=
  padN 4 d.y ++ "-" ++ padN 2 d.mo ++ "-" ++ padN 2 d.d ++ " " ++
  padN 2 d.h ++ ":" ++ padN 2 d.mi ++ ":" ++ padN 2 d.s

/-- `_format_datetime(dt)`: falsy values (None, empty string, zero) return
None; a truthy datetime is formatted; calling `.strftime` on any other
truthy value raises `AttributeError`, modelled as `Except.error`. -/
def formatDatetime (v : PyVal) : Except Unit (Option PyVal) :=
  if truthy v then
    match v with
    | .vdt d => .ok (some (.vstr (fmtDtm d)))
    | _ => .error ()
  else .ok none

/-- `Option PyVal` back into the dict slot (`None` or the string). -/
def orNone : Option PyVal → PyVal
  | some v => v
  | none => PyVal.vnone

/-- One queued item, as built by `_queue_for_retry`:
`{'type': ..., 'data': ..., 'audio_file': ..., 'timestamp': now}`. -/
structure Item where
  ty : String
  data : Dict
  audioF : Option String
  ts : String
deriving DecidableEq

/-- The queue store: the in-memory `Queue` contents (FIFO, head first) and
the current content of `offline_queue.json`. -/
structure QState where
  memory : List Item
  disk : List Item
deriving DecidableEq

/-- `_queue_for_retry`: wrap, `put` at the tail, then
`_save_offline_queue` (full snapshot rewrite). -/
def queueForRetry (ty : String) (data : Dict) (audioF : Option String)
    (now : String) (s : QState) : QState :=
  let mem := s.memory ++ [⟨ty, data, audioF, now⟩]
  ⟨mem, mem⟩

/-- `_load_offline_queue`: `put` every item of the file into the queue
(at startup the queue is empty, so memory becomes the file content). -/
def loadQueue (s : QState) : QState :=
  ⟨s.memory ++ s.disk, s.disk⟩

/-- What one HTTP attempt inside `_make_request` produces: a 200 with a
JSON body, a 401, any other status, or a raised
timeout/connection/other exception (all caught by the loop). -/
structure Resp where
  success : Bool
deriving DecidableEq

inductive Outcome
  | http200 (r : Resp)
  | http401
  | httpErr
  | netErr
deriving DecidableEq

/-- The transient attempt results: non-200/non-401 statuses and caught
exceptions, i.e. everything that lets the loop continue to the backoff. -/
def isTransient : Outcome → Bool
  | .httpErr => true
  | .netErr => true
  | _ => false

/-- Result of one `_make_request` call: the returned JSON (or None), how
many attempts were launched, and the `time.sleep` durations in order. -/
structure RReq where
  result : Option Resp
  attempts : Nat
  sleeps : List Nat
deriving DecidableEq

/-- The `for attempt in range(retry_attempts)` loop: a 200 returns the
body at once, a 401 returns None at once, anything else falls through to
`time.sleep(2 ** attempt)` — skipped on the last attempt — and the next
iteration; an exhausted loop returns None.  `i` is the next attempt index,
`fuel` the remaining iterations, `n` the configured `retry_attempts`. -/
def mrAux (outcomes : Nat → Outcome) (n : Nat) : Nat → Nat → RReq
  | _, 0 => ⟨none, 0, []⟩
  | i, fuel + 1 =>
      match outcomes i with
      | .http200 r => ⟨some r, 1, []⟩
      | .http401 => ⟨none, 1, []⟩
      | _ =>
          let r := mrAux outcomes n (i + 1) fuel
          ⟨r.result, r.attempts + 1, (if i < n - 1 then [2 ^ i] else []) ++ r.sleeps⟩

/-- `_make_request` with `retry_attempts = n`. -/
def makeRequest (outcomes : Nat → Outcome) (n : Nat) : RReq :=
  mrAux outcomes n 0 n

instance : DecidableEq (Except Unit Bool) := fun a b =>
  match a, b with
  | .error .unit, .error .unit => isTrue rfl
  | .error _, .ok _ => isFalse (fun h => Except.noConfusion h)
  | .ok _, .error _ => isFalse (fun h => Except.noConfusion h)
  | .ok x, .ok y =>
      if h : x = y then isTrue (by rw [h])
      else isFalse (fun hc => h (by injection hc))

/-- Result of one `post_*` call: the boolean return (or an uncaught
exception), the queue state, and the network activity. -/
structure PostRes where
  res : Except Unit Bool
  st : QState
  attempts : Nat
  sleeps : List Nat
deriving DecidableEq

/-- The `data` dict `post_transmission` builds (evaluated left to right;
the two `_format_datetime` calls may raise before any request is made). -/
def buildTransData (tr : Dict) (st et : Option PyVal) : Dict :=
  [("radio_id", dget tr "radio_id"),
   ("talkgroup_id", dget tr "destination_id"),
   ("timeslot", dget tr "slot"),
   ("start_time", orNone st),
   ("end_time", orNone et),
   ("duration", dget tr "duration"),
   ("rssi", dget tr "rssi"),
   ("ber", dget tr "ber")]

/-- `post_transmission`: build the data dict (outside the `try`, so a
`_format_datetime` failure propagates with no request made), call
`_make_request`, and on a missing response or falsy success flag queue the
record for retry and return False.  The audio file is carried as a path
only; multipart vs JSON transport does not change any modelled outcome. -/
def post_transmission (tr : Dict) (audioF : Option String)
    (outcomes : Nat → Outcome) (n : Nat) (s : QState) (now : String) : PostRes :=
  match formatDatetime (dget tr "start_time") with
  | .error _ => ⟨.error (), s, 0, []⟩
  | .ok st =>
    match formatDatetime (dget tr "end_time") with
    | .error _ => ⟨.error (), s, 0, []⟩
    | .ok et =>
      let data := buildTransData tr st et
      let r := makeRequest outcomes n
      match r.result with
      | some resp =>
          if resp.success then ⟨.ok true, s, r.attempts, r.sleeps⟩
          else ⟨.ok false, queueForRetry "transmission" data audioF now s, r.attempts, r.sleeps⟩
      | none => ⟨.ok false, queueForRetry "transmission" data audioF now s, r.attempts, r.sleeps⟩

/-- The `data` dict `post_sms` builds (`timestamp` formatted last). -/
def buildSmsData (sms : Dict) (ts : Option PyVal) : Dict :=
  [("from_radio_id", dget sms "from_radio_id"),
   ("to_radio_id", dget sms "to_radio_id"),
   ("to_talkgroup_id", dget sms "to_talkgroup_id"),
   ("message", dget sms "message"),
   ("timestamp", orNone ts)]

def post_sms (sms : Dict) (outcomes : Nat → Outcome) (n : Nat)
    (s : QState) (now : String) : PostRes :=
  match formatDatetime (dget sms "timestamp") with
  | .error _ => ⟨.error (), s, 0, []⟩
  | .ok ts =>
    let data := buildSmsData sms ts
    let r := makeRequest outcomes n
    match r.result with
    | some resp =>
        if resp.success then ⟨.ok true, s, r.attempts, r.sleeps⟩
        else ⟨.ok false, queueForRetry "sms" data none now s, r.attempts, r.sleeps⟩
    | none => ⟨.ok false, queueForRetry "sms" data none now s, r.attempts, r.sleeps⟩

/-- The `data` dict `post_gps` builds. -/
def buildGpsData (gps : Dict) (ts : Option PyVal) : Dict :=
  [("radio_id", dget gps "radio_id"),
   ("latitude", dget gps "latitude"),
   ("longitude", dget gps "longitude"),
   ("altitude", dget gps "altitude"),
   ("speed", dget gps "speed"),
   ("heading", dget gps "heading"),
   ("accuracy", dget gps "accuracy"),
   ("timestamp", orNone ts)]

def post_gps (gps : Dict) (outcomes : Nat → Outcome) (n : Nat)
    (s : QState) (now : String) : PostRes :=
  match formatDatetime (dget gps "timestamp") with
  | .error _ => ⟨.error (), s, 0, []⟩
  | .ok ts =>
    let data := buildGpsData gps ts
    let r := makeRequest outcomes n
    match r.result with
    | some resp =>
        if resp.success then ⟨.ok true, s, r.attempts, r.sleeps⟩
        else ⟨.ok false, queueForRetry "gps" data none now s, r.attempts, r.sleeps⟩
    | none => ⟨.ok false, queueForRetry "gps" data none now s, r.attempts, r.sleeps⟩

/-- The `data` dict `post_emergency` builds. -/
def buildEmergencyData (em : Dict) (ts : Option PyVal) : Dict :=
  [("radio_id", dget em "radio_id"),
   ("emergency_type", dget em "emergency_type"),
   ("latitude", dget em "latitude"),
   ("longitude", dget em "longitude"),
   ("triggered_at", orNone ts)]

def post_emergency (em : Dict) (outcomes : Nat → Outcome) (n : Nat)
    (s : QState) (now : String) : PostRes :=
  match formatDatetime (dget em "triggered_at") with
  | .error _ => ⟨.error (), s, 0, []⟩
  | .ok ts =>
    let data := buildEmergencyData em ts
    let r := makeRequest outcomes n
    match r.result with
    | some resp =>
        if resp.success then ⟨.ok true, s, r.attempts, r.sleeps⟩
        else ⟨.ok false, queueForRetry "emergency" data none now s, r.attempts, r.sleeps⟩
    | none => ⟨.ok false, queueForRetry "emergency" data none now s, r.attempts, r.sleeps⟩

/-- How one iteration of `_process_offline_queue` ends: the 10-second
`get` timed out on an empty queue; the item was delivered and the shrunk
queue saved; the item failed and was `put` back (followed by the
60-second cooldown); or an exception escaped the item processing and was
caught by the loop's outer handler (followed by a 10-second pause). -/
inductive DrainOut
  | gotEmpty
  | okDone
  | putBack
  | excCaught
deriving DecidableEq

/-- One iteration of the background drain loop `_process_offline_queue`:
dequeue the head item, dispatch on its `'type'` to the matching `post_*`
(anything else leaves `success = False` with no call), then either save
the shrunk queue (success), put the item back without saving (failure), or
— when the `post_*` call raised — fall into the outer `except`, the item
staying dequeued.  Returns the new state, how the iteration ended, and the
number of network attempts launched. -/
def drainStep (outcomes : Nat → Outcome) (n : Nat) (now : String)
    (s : QState) : QState × DrainOut × Nat :=
  match s.memory with
  | [] => (s, .gotEmpty, 0)
  | item :: rest =>
    let s1 : QState := ⟨rest, s.disk⟩
    let pr : PostRes :=
      if item.ty = "transmission" then
        post_transmission item.data item.audioF outcomes n s1 now
      else if item.ty = "sms" then
        post_sms item.data outcomes n s1 now
      else if item.ty = "gps" then
        post_gps item.data outcomes n s1 now
      else if item.ty = "emergency" then
        post_emergency item.data outcomes n s1 now
      else ⟨.ok false, s1, 0, []⟩
    match pr.res with
    | .error _ => (pr.st, .excCaught, pr.attempts)
    | .ok true => (⟨pr.st.memory, pr.st.memory⟩, .okDone, pr.attempts)
    | .ok false => (⟨pr.st.memory ++ [item], pr.st.disk⟩, .putBack, pr.attempts)

/-! ## Auxiliary predicates and concrete inputs used by the claims -/

/-- The timestamp-valued keys of each queued payload kind, i.e. the dict
entries produced by `_format_datetime` when the item was first queued (and
fed to `_format_datetime` again by the drain loop's re-delivery). -/
def tsFieldNames : String → List String
  | "transmission" => ["start_time", "end_time"]
  | "sms" => ["timestamp"]
  | "gps" => ["timestamp"]
  | "emergency" => ["triggered_at"]
  | _ => []

/-- The shapes `_format_datetime` leaves in a queued payload's timestamp
slot: None, or a nonempty formatted string. -/
def serializedTs : PyVal → Bool
  | .vnone => true
  | .vstr str => str ≠ ""
  | _ => false

/-- An event that neither starts nor ends a transmission on the given
slot (signal samples, data headers and emergencies on any slot, and
voice starts/ends on other slots). -/
def avoidsSlot (slot : Nat) : Event → Prop
  | .vstart _ s _ _ _ => s ≠ slot
  | .vend _ s _ _ => s ≠ slot
  | _ => True

/-- Correlator invariant threaded through the events between a VoiceStart
on `(slot0, radio0)` and its closing VoiceEnd: the keys are distinct, the
opened transmission `t0` is live (its `rssi` possibly resampled to `r`),
every live transmission on `slot0` is exactly that entry, and no further
transmission on `slot0` has been emitted. -/
def MidInv (slot0 radio0 : Nat) (t0 : Trans) (base : List Trans) (s : CState) : Prop :=
  (s.openT.map Prod.fst).Nodup ∧
  ∃ r, ((slot0, radio0), { t0 with rssi := r }) ∈ s.openT ∧
    (∀ p ∈ s.openT, (p.2).slot = slot0 → p = ((slot0, radio0), { t0 with rssi := r })) ∧
    closedOn slot0 s.out = base

/-- A fixed stand-in for `datetime.now()`. -/
def now0 : Dtm := ⟨2030, 1, 1, 0, 0, 0, 0⟩

/-- The concrete voice-header line of the spec's scenario. -/
def c3Start : String :=
  "M: 2024-01-01 12:00:00.000 DMR Slot 1, received voice header from 2222001 to TG 1"

/-- The concrete voice-end line of the spec's scenario. -/
def c3End : String :=
  "M: 2024-01-01 12:00:05.500 DMR Slot 1, received voice end of transmission, 5.3s, BER: 1.20%"

/-- The transmission dict opened by `c3Start`. -/
def c3Open : Trans :=
  ⟨"voice", 1, 2222001, DestT.tg, 1, ⟨2024, 1, 1, 12, 0, 0, 0⟩, none, none, none, none⟩

/-- The record emitted when `c3End` closes it. -/
def c3Closed : Trans :=
  ⟨"voice", 1, 2222001, DestT.tg, 1, ⟨2024, 1, 1, 12, 0, 0, 0⟩, none, some (mkRat 6 5),
   some ⟨2024, 1, 1, 12, 0, 5, 500000⟩, some (mkRat 53 10)⟩

/-- An earlier voice header by a different radio on the same slot. -/
def c3Prior : String :=
  "M: 2024-01-01 11:59:50.000 DMR Slot 1, received voice header from 1111111 to TG 1"

/-- A second voice header on slot 1 (radio 2222002), directly followed in
the counterexample sequence by the voice end on slot 1. -/
def c3Second : String :=
  "M: 2024-01-01 12:00:00.000 DMR Slot 1, received voice header from 2222002 to TG 1"

/-- Two voice headers with the same correlation key (slot 1, radio
3333003) and different destinations, then the voice end on slot 1. -/
def c6First : String :=
  "M: 2024-01-01 12:00:00.000 DMR Slot 1, received voice header from 3333003 to TG 1"

def c6Second : String :=
  "M: 2024-01-01 12:00:01.000 DMR Slot 1, received voice header from 3333003 to TG 2"

/-- A pattern-matching voice-header line whose timestamp has month 13 —
shape-valid for the regex, rejected by `strptime`. -/
def c9Bad : String :=
  "M: 2024-13-01 12:00:00.000 DMR Slot 1, received voice header from 123 to TG 1"

/-- A truncated voice-header line (a read racing the log writer). -/
def c9Trunc : String :=
  "M: 2024-01-01 12:00:00.000 DMR Slot 1, received voice head"

/-- An open transmission on slot 1 used to instantiate the correlator
theorems. -/
def c7Open : Trans :=
  ⟨"voice", 1, 9, DestT.tg, 1, ⟨2024, 1, 1, 0, 59, 55, 0⟩, none, none, none, none⟩

/-- A target that always fails transiently (connection errors). -/
def oTransient : Nat → Outcome := fun _ => Outcome.netErr

/-- A target that always rejects authentication. -/
def oAuth : Nat → Outcome := fun _ => Outcome.http401

/-- A target that accepts at once with a truthy success flag. -/
def oAccept : Nat → Outcome := fun _ => Outcome.http200 ⟨true⟩

/-- A queued GPS payload whose `timestamp` is None (already a projected
`post_gps` data dict, as every queued gps payload is). -/
def gData : Dict :=
  [("radio_id", .vint 7), ("latitude", .vnone), ("longitude", .vnone),
   ("altitude", .vnone), ("speed", .vnone), ("heading", .vnone),
   ("accuracy", .vnone), ("timestamp", .vnone)]

/-- The queued wrapper `_queue_for_retry` builds for `gData`. -/
def gItem : Item := ⟨"gps", gData, none, "t0"⟩

/-- A transmission dict (as passed to `post_transmission` by the monitor
callback path) without timestamps. -/
def trNoTs : Dict :=
  [("radio_id", .vint 100), ("destination_id", .vint 5), ("slot", .vint 1),
   ("start_time", .vnone), ("end_time", .vnone), ("duration", .vrat 3),
   ("rssi", .vnone), ("ber", .vnone)]

/-- A queued transmission item whose payload carries a serialized
(string) `start_time`, exactly as `_queue_for_retry` stores it. -/
def trQueuedItem : Item :=
  ⟨"transmission",
   [("radio_id", .vint 1), ("talkgroup_id", .vint 2), ("timeslot", .vint 1),
    ("start_time", .vstr "2024-01-01 10:00:00"), ("end_time", .vnone),
    ("duration", .vrat 5), ("rssi", .vnone), ("ber", .vnone)],
   none, "t0"⟩

/-! ## Library of facts about the correlator's list operations -/

theorem endScan_none (now : Dtm) (ts : TS) (dur ber : Rat) (slot : Nat) :
    ∀ l, (∀ p ∈ l, (p.2).slot ≠ slot) → endScan now ts dur ber slot l = none := by
  intro l
  induction l with
  | nil => intro _; rfl
  | cons p rest ih =>
    obtain ⟨k, t⟩ := p
    intro h
    have ht : t.slot ≠ slot := h (k, t) (by simp)
    rw [endScan, if_neg (fun hc => ht hc.1), ih (fun q hq => h q (by simp [hq]))]

theorem updFirst_id (slot : Nat) (v : Int) :
    ∀ l, (∀ p ∈ l, (p.2).slot ≠ slot) → updFirst slot v l = l := by
  intro l
  induction l with
  | nil => intro _; rfl
  | cons p rest ih =>
    obtain ⟨k, t⟩ := p
    intro h
    have ht : t.slot ≠ slot := h (k, t) (by simp)
    rw [updFirst, if_neg ht, ih (fun q hq => h q (by simp [hq]))]

/-! ## C8 -/

/-- C8: a VoiceEnd or SignalSample event with no open transmission on its
slot is dropped silently — the correlator state (live map and emitted
callbacks) is unchanged, and the total step function raises nothing. -/
theorem c8_unmatched_end_sample_dropped (now : Dtm) (s : CState) (slot : Nat)
    (ts : TS) (dur ber : Rat) (v : Int)
    (h : ∀ p ∈ s.openT, (p.2).slot ≠ slot) :
    stepEvent now s (Event.vend ts slot dur ber) = s ∧
    stepEvent now s (Event.sig slot v) = s := by
  constructor
  · simp [stepEvent, endScan_none now ts dur ber slot s.openT h]
  · simp [stepEvent, updFirst_id slot v s.openT h]

/-- Witness for C8 at a concrete state with no open transmission. -/
theorem c8_unmatched_end_sample_dropped_witness :
    stepEvent now0 initCState (Event.vend ⟨2024, 1, 1, 0, 0, 0, 0⟩ 1 1 1) = initCState ∧
    stepEvent now0 initCState (Event.sig 1 (-70)) = initCState :=
  c8_unmatched_end_sample_dropped now0 initCState 1 ⟨2024, 1, 1, 0, 0, 0, 0⟩ 1 1 (-70)
    (by simp [initCState])

/-! ## C10 -/

/-- C10: from any queue state, `_queue_for_retry` followed by a reload
from the queue file (a simulated restart starting with an empty in-memory
queue) reproduces exactly the pre-restart in-memory content. -/
theorem c10_enqueue_reload_roundtrip (ty : String) (data : Dict)
    (audioF : Option String) (now : String) (s : QState) :
    (loadQueue ⟨[], (queueForRetry ty data audioF now s).disk⟩).memory
      = (queueForRetry ty data audioF now s).memory := by
  simp [loadQueue, queueForRetry]

/-! ## C2 -/

/-- C2 counterexample: a 401 on the first attempt does abort retrying, but
the record *is* handed to the persistent queue store — `_make_request`
returns None on a 401, which `post_transmission` cannot distinguish from
transient exhaustion, so it queues the record; the claim's "zero queueing"
and "surfaced as unrecoverable" are false on the code. -/
theorem c2_auth_failure_cex :
    (post_transmission trNoTs none oAuth 3 ⟨[], []⟩ "t0").st.memory ≠ [] ∧
    (post_transmission trNoTs none oAuth 3 ⟨[], []⟩ "t0").attempts = 1 ∧
    (post_transmission trNoTs none oAuth 3 ⟨[], []⟩ "t0").res = .ok false := by
  constructor
  · decide
  · constructor <;> decide

/-- C2 amended: an authentication rejection (HTTP 401) on the first
attempt causes zero further retries and no backoff inside
`_make_request`, but the call returns None, so the caller queues the
record for retry all the same and reports plain failure (False), not a
distinguished unrecoverable error. -/
theorem c2_auth_failure_amended (tr : Dict) (audioF : Option String)
    (outcomes : Nat → Outcome) (n : Nat) (s : QState) (now : String)
    (st et : Option PyVal)
    (hn : 1 ≤ n) (h0 : outcomes 0 = Outcome.http401)
    (hst : formatDatetime (dget tr "start_time") = .ok st)
    (het : formatDatetime (dget tr "end_time") = .ok et) :
    post_transmission tr audioF outcomes n s now =
      ⟨.ok false, queueForRetry "transmission" (buildTransData tr st et) audioF now s,
       1, []⟩ := by
  cases n with
  | zero => omega
  | succ m => simp [post_transmission, hst, het, makeRequest, mrAux, h0]

/-- Witness for C2 amended at the concrete 401 target. -/
theorem c2_auth_failure_amended_witness :
    post_transmission trNoTs none oAuth 3 ⟨[], []⟩ "t0" =
      ⟨.ok false, queueForRetry "transmission" (buildTransData trNoTs none none) none "t0" ⟨[], []⟩,
       1, []⟩ :=
  c2_auth_failure_amended trNoTs none oAuth 3 ⟨[], []⟩ "t0" none none
    (by decide) rfl rfl rfl

/-! ## C9 -/

/-- C9 counterexample: the line `c9Bad` matches the voice-header pattern
but its timestamp (month 13) is rejected by `strptime`; the claim says
such a line classifies as none with no event produced, yet the code's
`_parse_timestamp` falls back to `datetime.now()` and the handler opens a
transmission with that fallback start time. -/
theorem c9_failsoft_cex :
    classifyLine c9Bad ≠ none ∧
    (processLine now0 initCState c9Bad).openT =
      [((1, 123), ⟨"voice", 1, 123, DestT.tg, 1, now0, none, none, none, none⟩)] := by
  constructor
  · decide
  · decide

/-- C9 amended: the classifier is fail-soft — it is a total function, a
line matching no pattern (such as a truncated one) produces no event and
leaves the state untouched — and the numeric captures are digit-shaped
by the patterns, so they always convert; but an otherwise-matching line
with a shape-valid, semantically unparseable timestamp still produces the
event, with the current time substituted as its timestamp. -/
theorem c9_failsoft_amended :
    (∀ (now : Dtm) (s : CState) (line : String),
      classifyLine line = none → processLine now s line = s)
    ∧ classifyLine c9Trunc = none
    ∧ (∀ (now : Dtm) (s : CState) (ts : TS) (slot radio : Nat) (dt : DestT) (destId : Nat),
        tsValid ts = false →
        stepEvent now s (Event.vstart ts slot radio dt destId) =
          ⟨dictInsert (slot, radio) ⟨"voice", slot, radio, dt, destId, now, none, none, none, none⟩ s.openT,
           s.out ++ [Cb.tstart ⟨"voice", slot, radio, dt, destId, now, none, none, none, none⟩]⟩) := by
  refine ⟨fun now s line h => by simp [processLine, h], by decide, ?_⟩
  intro now s ts slot radio dt destId h
  simp [stepEvent, mkOpen, resolveTs, h]

/-- Witness for C9 amended: a non-matching line really classifies to none
and leaves a concrete state unchanged, and a concrete invalid timestamp
really falls back to `now`. -/
theorem c9_failsoft_amended_witness :
    processLine now0 initCState "unrelated log line" = initCState ∧
    stepEvent now0 initCState (Event.vstart ⟨2024, 13, 1, 12, 0, 0, 0⟩ 1 123 DestT.tg 1) =
      ⟨dictInsert (1, 123) ⟨"voice", 1, 123, DestT.tg, 1, now0, none, none, none, none⟩ initCState.openT,
       initCState.out ++ [Cb.tstart ⟨"voice", 1, 123, DestT.tg, 1, now0, none, none, none, none⟩]⟩ :=
  ⟨c9_failsoft_amended.1 now0 initCState "unrelated log line" (by decide),
   c9_failsoft_amended.2.2 now0 initCState ⟨2024, 13, 1, 12, 0, 0, 0⟩ 1 123 DestT.tg 1 (by decide)⟩

/-! ## C5 -/

theorem mrAux_transient (outcomes : Nat → Outcome) (n : Nat)
    (h : ∀ j, isTransient (outcomes j) = true) :
    ∀ fuel i, mrAux outcomes n i fuel =
      ⟨none, fuel, ((List.range' i fuel).filter (fun j => decide (j < n - 1))).map
        (fun j => 2 ^ j)⟩ := by
  intro fuel
  induction fuel with
  | zero => intro i; rfl
  | succ m ih =>
    intro i
    have hi := h i
    rw [mrAux]
    cases ho : outcomes i with
    | http200 r => rw [ho] at hi; simp [isTransient] at hi
    | http401 => rw [ho] at hi; simp [isTransient] at hi
    | httpErr =>
        simp only [ih (i + 1), List.range'_succ, List.filter_cons]
        by_cases hc : i < n - 1 <;> simp [hc]
    | netErr =>
        simp only [ih (i + 1), List.range'_succ, List.filter_cons]
        by_cases hc : i < n - 1 <;> simp [hc]

theorem range_filter_lt_map (n : Nat) :
    ((List.range n).filter (fun j => decide (j < n - 1))).map (fun j => 2 ^ j)
      = (List.range (n - 1)).map (fun j => 2 ^ j) := by
  cases n with
  | zero => rfl
  | succ m =>
    rw [List.range_succ, List.filter_append]
    have h2 : (List.range m).filter (fun j => decide (j < m + 1 - 1)) = List.range m := by
      apply List.filter_eq_self.mpr
      intro a ha
      simp [List.mem_range.mp ha]
    rw [h2]
    simp

/-- `_make_request` against an always-transient target: None comes back,
all `n` attempts are launched, and the sleeps are `2^0, 2^1, ...` for
every attempt except the last. -/
theorem makeRequest_transient (outcomes : Nat → Outcome) (n : Nat)
    (h : ∀ j, isTransient (outcomes j) = true) :
    makeRequest outcomes n = ⟨none, n, (List.range (n - 1)).map (fun j => 2 ^ j)⟩ := by
  rw [makeRequest, mrAux_transient outcomes n h n 0, ← List.range_eq_range',
    range_filter_lt_map]

/-- C5: against a target that fails transiently on every attempt,
`post_transmission` launches exactly `retry_attempts` attempts, sleeps
`1, 2, 4, ...` time-units between consecutive attempts (nothing after the
last one), and only then hands the record to the queue store (which is
flushed) and returns failure. -/
theorem c5_transient_retry_exhaustion (tr : Dict) (audioF : Option String)
    (outcomes : Nat → Outcome) (n : Nat) (s : QState) (now : String)
    (st et : Option PyVal)
    (ht : ∀ j, isTransient (outcomes j) = true)
    (hst : formatDatetime (dget tr "start_time") = .ok st)
    (het : formatDatetime (dget tr "end_time") = .ok et) :
    post_transmission tr audioF outcomes n s now =
      ⟨.ok false, queueForRetry "transmission" (buildTransData tr st et) audioF now s,
       n, (List.range (n - 1)).map (fun j => 2 ^ j)⟩ := by
  simp [post_transmission, hst, het, makeRequest_transient outcomes n ht]

/-- Witness for C5 with `retry_attempts = 3`: 3 attempts and sleeps 1, 2. -/
theorem c5_transient_retry_exhaustion_witness :
    post_transmission trNoTs none oTransient 3 ⟨[], []⟩ "t0" =
      ⟨.ok false,
       queueForRetry "transmission" (buildTransData trNoTs none none) none "t0" ⟨[], []⟩,
       3, (List.range 2).map (fun j => 2 ^ j)⟩ :=
  c5_transient_retry_exhaustion trNoTs none oTransient 3 ⟨[], []⟩ "t0" none none
    (fun _ => rfl) rfl rfl

/-! ## C1 -/

/-- C1 counterexample: after a failed drain attempt the re-enqueue (the
drain loop's `put`) happens with no flush — starting from a store holding
one gps item and a transiently failing target, one drain iteration leaves
two copies of the item in memory while the file holds one, so the full
item set was not flushed before the mutating call returned. -/
theorem c1_durable_flush_cex :
    (drainStep oTransient 3 "t0" (queueForRetry "gps" gData none "t0" ⟨[], []⟩)).1.memory
      = [gItem, gItem] ∧
    (drainStep oTransient 3 "t0" (queueForRetry "gps" gData none "t0" ⟨[], []⟩)).1.disk
      = [gItem] ∧
    (drainStep oTransient 3 "t0" (queueForRetry "gps" gData none "t0" ⟨[], []⟩)).2.1
      = DrainOut.putBack := by
  refine ⟨by decide, by decide, by decide⟩

/-- C1 amended: `enqueue` (`_queue_for_retry`) and a *successful* drain
iteration do flush the full current item set before returning; but a
failed drain attempt re-enqueues the dequeued item without any flush
(the only flush on that path covers a fresh copy queued by the inner
delivery call, leaving the re-enqueued original unpersisted and the item
duplicated in memory — see the counterexample). -/
theorem c1_durable_flush_amended :
    (∀ ty data audioF now s,
      (queueForRetry ty data audioF now s).disk = (queueForRetry ty data audioF now s).memory)
    ∧ (∀ outcomes n now s s2 att,
        drainStep outcomes n now s = (s2, DrainOut.okDone, att) → s2.disk = s2.memory) := by
  constructor
  · intro ty data audioF now s; rfl
  · intro outcomes n now s s2 att h
    cases hsm : s.memory with
    | nil => simp [drainStep, hsm] at h
    | cons item rest =>
      simp only [drainStep, hsm] at h
      split at h
      · simp at h
      · obtain ⟨h1, -⟩ := Prod.mk.injEq .. ▸ h
        subst h1
        rfl
      · simp [Prod.ext_iff] at h

/-- Witness for C1 amended: a successful drain really flushes. -/
theorem c1_durable_flush_amended_witness :
    ((⟨[], []⟩ : QState)).disk = ((⟨[], []⟩ : QState)).memory :=
  c1_durable_flush_amended.2 oAccept 3 "t0" ⟨[gItem], [gItem]⟩ ⟨[], []⟩ 1 (by decide)

/-! ## C4 -/

/-- C4: a queued transmission/sms/gps/emergency item whose payload
timestamp fields are in serialized form with at least one non-null (a
nonempty string, as `_queue_for_retry` stores them) makes the drain
loop's re-delivery raise `AttributeError` inside `_format_datetime`
before any network request; the outer handler catches it after the item
was dequeued, so the item is dropped from the in-memory queue, is not
re-enqueued, and the file is not rewritten. -/
theorem c4_drain_drops_serialized_item (outcomes : Nat → Outcome) (n : Nat)
    (now : String) (s : QState) (item : Item) (rest : List Item)
    (hm : s.memory = item :: rest)
    (hty : item.ty ∈ ["transmission", "sms", "gps", "emergency"])
    (hser : ∀ f ∈ tsFieldNames item.ty, serializedTs (dget item.data f) = true)
    (hsome : ∃ f ∈ tsFieldNames item.ty, dget item.data f ≠ PyVal.vnone) :
    drainStep outcomes n now s = (⟨rest, s.disk⟩, DrainOut.excCaught, 0) := by
  have fmtErr : ∀ v : PyVal, serializedTs v = true → v ≠ PyVal.vnone →
      formatDatetime v = .error () := by
    intro v hv hne
    cases v with
    | vnone => exact absurd rfl hne
    | vstr str =>
        simp [serializedTs] at hv
        simp [formatDatetime, truthy, hv]
    | vint k => simp [serializedTs] at hv
    | vrat q => simp [serializedTs] at hv
    | vdt d => simp [serializedTs] at hv
  simp only [List.mem_cons, List.not_mem_nil, or_false] at hty
  rcases hty with h1 | h1 | h1 | h1 <;>
    rw [h1] at hser hsome <;>
    simp only [tsFieldNames, List.mem_cons, List.not_mem_nil, or_false,
      exists_eq_or_imp, exists_eq_left, forall_eq_or_imp, forall_eq] at hser hsome
  · -- transmission: the first truthy timestamp field raises
    rcases hser with ⟨hs1, hs2⟩
    by_cases hstart : dget item.data "start_time" = PyVal.vnone
    · have hend : dget item.data "end_time" ≠ PyVal.vnone := by
        rcases hsome with h | h
        · exact absurd hstart (by simp [h])
        · exact h
      have e2 := fmtErr _ hs2 hend
      have e1 : formatDatetime (dget item.data "start_time") = .ok none := by
        rw [hstart]; rfl
      simp [drainStep, hm, h1, post_transmission, e1, e2]
    · have e1 := fmtErr _ hs1 hstart
      simp [drainStep, hm, h1, post_transmission, e1]
  · have e1 := fmtErr _ hser hsome
    simp [drainStep, hm, h1, post_sms, e1]
  · have e1 := fmtErr _ hser hsome
    simp [drainStep, hm, h1, post_gps, e1]
  · have e1 := fmtErr _ hser hsome
    simp [drainStep, hm, h1, post_emergency, e1]

/-- Witness for C4 at a concrete queued transmission item with a string
`start_time`. -/
theorem c4_drain_drops_serialized_item_witness :
    drainStep oTransient 3 "t1" ⟨[trQueuedItem], [trQueuedItem]⟩ =
      (⟨[], [trQueuedItem]⟩, DrainOut.excCaught, 0) :=
  c4_drain_drops_serialized_item oTransient 3 "t1" ⟨[trQueuedItem], [trQueuedItem]⟩
    trQueuedItem [] rfl (by decide) (by decide) (by decide)

/-! ## More facts about the correlator's list operations -/

theorem dictInsert_mem_elim (k : Nat × Nat) (v : Trans) :
    ∀ l p, p ∈ dictInsert k v l → p = (k, v) ∨ p ∈ l := by
  intro l
  induction l with
  | nil => intro p hp; simp [dictInsert] at hp; simp [hp]
  | cons q rest ih =>
    obtain ⟨k2, v2⟩ := q
    intro p hp
    rw [dictInsert] at hp
    by_cases hk : k2 = k
    · rw [if_pos hk] at hp
      rcases List.mem_cons.mp hp with h | h
      · exact Or.inl h
      · exact Or.inr (List.mem_cons.mpr (Or.inr h))
    · rw [if_neg hk] at hp
      rcases List.mem_cons.mp hp with h | h
      · exact Or.inr (List.mem_cons.mpr (Or.inl h))
      · rcases ih p h with h2 | h2
        · exact Or.inl h2
        · exact Or.inr (List.mem_cons.mpr (Or.inr h2))

theorem dictInsert_mem_self (k : Nat × Nat) (v : Trans) :
    ∀ l, (k, v) ∈ dictInsert k v l := by
  intro l
  induction l with
  | nil => simp [dictInsert]
  | cons q rest ih =>
    obtain ⟨k2, v2⟩ := q
    rw [dictInsert]
    by_cases hk : k2 = k
    · rw [if_pos hk]; exact List.mem_cons_self _ _
    · rw [if_neg hk]; exact List.mem_cons.mpr (Or.inr ih)

theorem dictInsert_mem_of_ne (k : Nat × Nat) (v : Trans) (k0 : Nat × Nat) (v0 : Trans)
    (hne : k0 ≠ k) : ∀ l, (k0, v0) ∈ l → (k0, v0) ∈ dictInsert k v l := by
  intro l
  induction l with
  | nil => intro h; simp at h
  | cons q rest ih =>
    obtain ⟨k2, v2⟩ := q
    intro h
    rw [dictInsert]
    by_cases hk : k2 = k
    · rw [if_pos hk]
      rcases List.mem_cons.mp h with h2 | h2
      · exact absurd ((congrArg Prod.fst h2).trans hk) hne
      · exact List.mem_cons.mpr (Or.inr h2)
    · rw [if_neg hk]
      rcases List.mem_cons.mp h with h2 | h2
      · exact List.mem_cons.mpr (Or.inl h2)
      · exact List.mem_cons.mpr (Or.inr (ih h2))

theorem dictInsert_keys_nodup (k : Nat × Nat) (v : Trans) :
    ∀ l, (l.map Prod.fst).Nodup → ((dictInsert k v l).map Prod.fst).Nodup := by
  intro l
  induction l with
  | nil => intro _; simp [dictInsert]
  | cons q rest ih =>
    obtain ⟨k2, v2⟩ := q
    intro h
    simp only [List.map_cons, List.nodup_cons] at h
    rw [dictInsert]
    by_cases hk : k2 = k
    · rw [if_pos hk]
      simp only [List.map_cons, List.nodup_cons]
      exact ⟨hk ▸ h.1, h.2⟩
    · rw [if_neg hk]
      simp only [List.map_cons, List.nodup_cons]
      refine ⟨?_, ih h.2⟩
      intro hmem
      rcases List.mem_map.mp hmem with ⟨p, hp, hfst⟩
      rcases dictInsert_mem_elim k v rest p hp with h2 | h2
      · exact hk (by rw [← hfst, h2])
      · exact h.1 (hfst ▸ List.mem_map_of_mem Prod.fst h2)

theorem dictInsert_lookup_self (k : Nat × Nat) (v : Trans) :
    ∀ l, dlookup k (dictInsert k v l) = some v := by
  intro l
  induction l with
  | nil => simp [dictInsert, dlookup, List.find?]
  | cons q rest ih =>
    obtain ⟨k2, v2⟩ := q
    rw [dictInsert]
    by_cases hk : k2 = k
    · rw [if_pos hk]; simp [dlookup, List.find?]
    · rw [if_neg hk]
      simp only [dlookup, List.find?] at ih ⊢
      simp [hk, ih]

theorem endScan_rest_sublist (now : Dtm) (ts : TS) (dur ber : Rat) (slot : Nat) :
    ∀ l c rest, endScan now ts dur ber slot l = some (c, rest) → rest.Sublist l := by
  intro l
  induction l with
  | nil => intro c rest h; simp [endScan] at h
  | cons q tail ih =>
    obtain ⟨k, t⟩ := q
    intro c rest h
    rw [endScan] at h
    by_cases hc : t.slot = slot ∧ t.ty = "voice"
    · rw [if_pos hc] at h
      obtain ⟨-, h2⟩ := Prod.mk.injEq .. ▸ Option.some.injEq .. ▸ h
      exact h2 ▸ List.sublist_cons_self (k, t) tail
    · rw [if_neg hc] at h
      cases h2 : endScan now ts dur ber slot tail with
      | none => rw [h2] at h; exact absurd h (by simp)
      | some p =>
          obtain ⟨c2, rest2⟩ := p
          rw [h2] at h
          obtain ⟨-, h3⟩ := Prod.mk.injEq .. ▸ Option.some.injEq .. ▸ h
          exact h3 ▸ List.Sublist.cons₂ (k, t) (ih c2 rest2 h2)

theorem endScan_mem_rest (now : Dtm) (ts : TS) (dur ber : Rat) (slot : Nat) :
    ∀ l c rest, endScan now ts dur ber slot l = some (c, rest) →
      ∀ p ∈ l, (p.2).slot ≠ slot → p ∈ rest := by
  intro l
  induction l with
  | nil => intro c rest h; simp [endScan] at h
  | cons q tail ih =>
    obtain ⟨k, t⟩ := q
    intro c rest h p hp hps
    rw [endScan] at h
    by_cases hc : t.slot = slot ∧ t.ty = "voice"
    · rw [if_pos hc] at h
      obtain ⟨-, h2⟩ := Prod.mk.injEq .. ▸ Option.some.injEq .. ▸ h
      rcases List.mem_cons.mp hp with h3 | h3
      · exact absurd (h3 ▸ hc.1) hps
      · exact h2 ▸ h3
    · rw [if_neg hc] at h
      cases h2 : endScan now ts dur ber slot tail with
      | none => rw [h2] at h; exact absurd h (by simp)
      | some pr =>
          obtain ⟨c2, rest2⟩ := pr
          rw [h2] at h
          obtain ⟨-, h3⟩ := Prod.mk.injEq .. ▸ Option.some.injEq .. ▸ h
          rcases List.mem_cons.mp hp with h4 | h4
          · exact h3 ▸ (h4 ▸ List.mem_cons_self _ _)
          · exact h3 ▸ List.mem_cons.mpr (Or.inr (ih c2 rest2 h2 p h4 hps))

theorem endScan_emit_slot (now : Dtm) (ts : TS) (dur ber : Rat) (slot : Nat) :
    ∀ l c rest, endScan now ts dur ber slot l = some (c, rest) → c.slot = slot := by
  intro l
  induction l with
  | nil => intro c rest h; simp [endScan] at h
  | cons q tail ih =>
    obtain ⟨k, t⟩ := q
    intro c rest h
    rw [endScan] at h
    by_cases hc : t.slot = slot ∧ t.ty = "voice"
    · rw [if_pos hc] at h
      obtain ⟨h2, -⟩ := Prod.mk.injEq .. ▸ Option.some.injEq .. ▸ h
      rw [← h2]
      exact hc.1
    · rw [if_neg hc] at h
      cases h2 : endScan now ts dur ber slot tail with
      | none => rw [h2] at h; exact absurd h (by simp)
      | some pr =>
          obtain ⟨c2, rest2⟩ := pr
          rw [h2] at h
          obtain ⟨h3, -⟩ := Prod.mk.injEq .. ▸ Option.some.injEq .. ▸ h
          exact h3 ▸ ih c2 rest2 h2

theorem endScan_first_match (now : Dtm) (ts : TS) (dur ber : Rat) (slot : Nat) :
    ∀ l, (∃ p ∈ l, (p.2).slot = slot ∧ (p.2).ty = "voice") →
      ∃ l1 q l2, l = l1 ++ q :: l2 ∧
        (∀ p ∈ l1, ¬((p.2).slot = slot ∧ (p.2).ty = "voice")) ∧
        ((q.2).slot = slot ∧ (q.2).ty = "voice") ∧
        endScan now ts dur ber slot l = some (closeTr now ts dur ber q.2, l1 ++ l2) := by
  intro l
  induction l with
  | nil => intro h; simp at h
  | cons q0 tail ih =>
    obtain ⟨k, t⟩ := q0
    intro h
    by_cases hc : t.slot = slot ∧ t.ty = "voice"
    · exact ⟨[], (k, t), tail, by simp, by simp, hc, by rw [endScan, if_pos hc]; simp⟩
    · have htail : ∃ p ∈ tail, (p.2).slot = slot ∧ (p.2).ty = "voice" := by
        rcases h with ⟨p, hp, hps⟩
        rcases List.mem_cons.mp hp with h2 | h2
        · subst h2; exact absurd hps hc
        · exact ⟨p, h2, hps⟩
      rcases ih htail with ⟨l1, q, l2, hdec, hl1, hq, hscan⟩
      refine ⟨(k, t) :: l1, q, l2, by simp [hdec], ?_, hq, ?_⟩
      · intro p hp
        rcases List.mem_cons.mp hp with h2 | h2
        · subst h2; exact hc
        · exact hl1 p h2
      · rw [List.cons_append, endScan, if_neg hc, hscan]

theorem updFirst_keys (slot : Nat) (v : Int) :
    ∀ l, (updFirst slot v l).map Prod.fst = l.map Prod.fst := by
  intro l
  induction l with
  | nil => rfl
  | cons q rest ih =>
    obtain ⟨k, t⟩ := q
    rw [updFirst]
    by_cases hc : t.slot = slot
    · rw [if_pos hc]; simp
    · rw [if_neg hc]; simp [ih]

theorem updFirst_mem_of_slot_ne (slot : Nat) (v : Int) :
    ∀ l p, p ∈ l → (p.2).slot ≠ slot → p ∈ updFirst slot v l := by
  intro l
  induction l with
  | nil => intro p h; simp at h
  | cons q rest ih =>
    obtain ⟨k, t⟩ := q
    intro p hp hps
    rw [updFirst]
    by_cases hc : t.slot = slot
    · rw [if_pos hc]
      rcases List.mem_cons.mp hp with h2 | h2
      · exact absurd (h2 ▸ hc) hps
      · exact List.mem_cons.mpr (Or.inr h2)
    · rw [if_neg hc]
      rcases List.mem_cons.mp hp with h2 | h2
      · exact h2 ▸ List.mem_cons_self _ _
      · exact List.mem_cons.mpr (Or.inr (ih p h2 hps))

theorem updFirst_mem_elim (slot : Nat) (v : Int) :
    ∀ l p, p ∈ updFirst slot v l →
      p ∈ l ∨ ∃ q, q ∈ l ∧ (q.2).slot = slot ∧ p = (q.1, { q.2 with rssi := some v }) := by
  intro l
  induction l with
  | nil => intro p h; simp [updFirst] at h
  | cons q0 rest ih =>
    obtain ⟨k, t⟩ := q0
    intro p hp
    rw [updFirst] at hp
    by_cases hc : t.slot = slot
    · rw [if_pos hc] at hp
      rcases List.mem_cons.mp hp with h2 | h2
      · exact Or.inr ⟨(k, t), List.mem_cons_self _ _, hc, h2⟩
      · exact Or.inl (List.mem_cons.mpr (Or.inr h2))
    · rw [if_neg hc] at hp
      rcases List.mem_cons.mp hp with h2 | h2
      · exact Or.inl (h2 ▸ List.mem_cons_self _ _)
      · rcases ih p h2 with h3 | ⟨q, hq, hqs, hpe⟩
        · exact Or.inl (List.mem_cons.mpr (Or.inr h3))
        · exact Or.inr ⟨q, List.mem_cons.mpr (Or.inr hq), hqs, hpe⟩

theorem updFirst_first_match (slot : Nat) (v : Int) :
    ∀ l, (∃ p ∈ l, (p.2).slot = slot) →
      ∃ l1 q l2, l = l1 ++ q :: l2 ∧ (∀ p ∈ l1, (p.2).slot ≠ slot) ∧ (q.2).slot = slot ∧
        updFirst slot v l = l1 ++ (q.1, { q.2 with rssi := some v }) :: l2 := by
  intro l
  induction l with
  | nil => intro h; simp at h
  | cons q0 tail ih =>
    obtain ⟨k, t⟩ := q0
    intro h
    by_cases hc : t.slot = slot
    · exact ⟨[], (k, t), tail, by simp, by simp, hc, by rw [updFirst, if_pos hc]; simp⟩
    · have htail : ∃ p ∈ tail, (p.2).slot = slot := by
        rcases h with ⟨p, hp, hps⟩
        rcases List.mem_cons.mp hp with h2 | h2
        · subst h2; exact absurd hps hc
        · exact ⟨p, h2, hps⟩
      rcases ih htail with ⟨l1, q, l2, hdec, hl1, hq, hupd⟩
      refine ⟨(k, t) :: l1, q, l2, by simp [hdec], ?_, hq, ?_⟩
      · intro p hp
        rcases List.mem_cons.mp hp with h2 | h2
        · subst h2; exact hc
        · exact hl1 p h2
      · rw [List.cons_append, updFirst, if_neg hc, hupd]

theorem updFirst_decomp (slot : Nat) (v : Int) (k : Nat × Nat) (t : Trans)
    (ht : t.slot = slot) :
    ∀ pre post, (∀ p ∈ pre, (p.2).slot ≠ slot) →
      updFirst slot v (pre ++ (k, t) :: post) = pre ++ (k, { t with rssi := some v }) :: post := by
  intro pre
  induction pre with
  | nil => intro post _; simp [updFirst, ht]
  | cons q rest ih =>
    obtain ⟨k2, t2⟩ := q
    intro post h
    have h2 : t2.slot ≠ slot := h (k2, t2) (List.mem_cons_self _ _)
    rw [List.cons_append, updFirst, if_neg h2,
      ih post (fun p hp => h p (List.mem_cons.mpr (Or.inr hp)))]
    rfl

/-! ## Facts about per-step preservation of key distinctness -/

theorem stepEvent_keys_nodup (now : Dtm) (s : CState) (e : Event)
    (h : (s.openT.map Prod.fst).Nodup) :
    ((stepEvent now s e).openT.map Prod.fst).Nodup := by
  cases e with
  | vstart ts slot radio dt destId =>
      exact dictInsert_keys_nodup (slot, radio) _ s.openT h
  | vend ts slot dur ber =>
      rw [stepEvent]
      cases h2 : endScan now ts dur ber slot s.openT with
      | none => exact h
      | some p =>
          obtain ⟨c, rest⟩ := p
          exact ((endScan_rest_sublist now ts dur ber slot s.openT c rest h2).map
            Prod.fst).nodup h
  | sig slot v => simpa [stepEvent, updFirst_keys] using h
  | dhead ts slot radio dt destId => exact h
  | emerg ts slot => exact h

theorem stepEvents_keys_nodup (now : Dtm) :
    ∀ (es : List Event) (s : CState), (s.openT.map Prod.fst).Nodup →
      ((stepEvents now s es).openT.map Prod.fst).Nodup := by
  intro es
  induction es with
  | nil => intro s h; exact h
  | cons e rest ih =>
      intro s h
      exact ih (stepEvent now s e) (stepEvent_keys_nodup now s e h)

theorem processLine_keys_nodup (now : Dtm) (s : CState) (line : String)
    (h : (s.openT.map Prod.fst).Nodup) :
    ((processLine now s line).openT.map Prod.fst).Nodup := by
  rw [processLine]
  cases classifyLine line with
  | none => exact h
  | some e => exact stepEvent_keys_nodup now s e h

theorem closedAll_append_tstart (out : List Cb) (t : Trans) :
    closedAll (out ++ [Cb.tstart t]) = closedAll out := by
  simp [closedAll, List.filterMap_append]

/-! ## C6 -/

/-- C6: the live map holds at most one open transmission per correlation
key on every line sequence (its keys are distinct at all times); a
VoiceStart replaces the entry for its key in place, emitting no finalized
transmission (the replaced one is simply gone from the state — abandoned);
and in the concrete same-key scenario (two voice headers for slot 1 /
radio 3333003 with destinations TG 1 then TG 2, then a voice end) the only
emitted transmission is the second one, closed by the voice end. -/
theorem c6_at_most_one_open_per_key :
    (∀ (now : Dtm) (lines : List String), ((runLines now lines).openT.map Prod.fst).Nodup)
    ∧ (∀ (now : Dtm) (s : CState) (ts : TS) (slot radio : Nat) (dt : DestT) (destId : Nat),
        (stepEvent now s (Event.vstart ts slot radio dt destId)).openT
          = dictInsert (slot, radio) (mkOpen now ts slot radio dt destId) s.openT
        ∧ dlookup (slot, radio) (stepEvent now s (Event.vstart ts slot radio dt destId)).openT
          = some (mkOpen now ts slot radio dt destId)
        ∧ closedAll (stepEvent now s (Event.vstart ts slot radio dt destId)).out
          = closedAll s.out)
    ∧ closedAll (runLines now0 [c6First, c6Second, c3End]).out
        = [⟨"voice", 1, 3333003, DestT.tg, 2, ⟨2024, 1, 1, 12, 0, 1, 0⟩, none, some (mkRat 6 5),
            some ⟨2024, 1, 1, 12, 0, 5, 500000⟩, some (mkRat 53 10)⟩] := by
  refine ⟨?_, ?_, by decide⟩
  · intro now lines
    induction lines using List.reverseRecOn with
    | nil => simp [runLines, initCState]
    | append_singleton ls line ih =>
        rw [runLines, List.foldl_append, List.foldl_cons, List.foldl_nil]
        exact processLine_keys_nodup now _ line ih
  · intro now s ts slot radio dt destId
    exact ⟨rfl, dictInsert_lookup_self (slot, radio) _ s.openT,
      closedAll_append_tstart s.out _⟩

/-! ## C7 -/

theorem sig_fold_single (now : Dtm) (out : List Cb) (k : Nat × Nat) (slot : Nat) :
    ∀ (vs : List Int) (vL : Int) (t : Trans), t.slot = slot → vs.getLast? = some vL →
      stepEvents now ⟨[(k, t)], out⟩ (vs.map (Event.sig slot)) =
        ⟨[(k, { t with rssi := some vL })], out⟩ := by
  intro vs
  induction vs with
  | nil => intro vL t ht h; simp at h
  | cons v ws ih =>
    intro vL t ht h
    have step1 : stepEvent now ⟨[(k, t)], out⟩ (Event.sig slot v) =
        ⟨[(k, { t with rssi := some v })], out⟩ := by
      simp [stepEvent, updFirst, ht]
    cases ws with
    | nil =>
        have hv : v = vL := by simpa using h
        subst hv
        simpa [stepEvents] using step1
    | cons w ws2 =>
        have h2 : (w :: ws2).getLast? = some vL := by
          rwa [List.getLast?_cons_cons] at h
        have hrec := ih vL { t with rssi := some v } ht h2
        simp only [stepEvents, List.map_cons, List.foldl_cons] at hrec ⊢
        rw [step1]
        exact hrec

/-- C7: a SignalSample never opens or closes a transmission (the map keys
and the emitted callbacks are unchanged); it updates the rssi of the
first open transmission whose slot matches (the open transmission on that
slot); and when a single transmission is open, the last sample processed
before the matching VoiceEnd is the rssi on the emitted record. -/
theorem c7_signal_sample_rssi :
    (∀ (now : Dtm) (s : CState) (slot : Nat) (v : Int),
        (stepEvent now s (Event.sig slot v)).openT.map Prod.fst = s.openT.map Prod.fst
        ∧ (stepEvent now s (Event.sig slot v)).out = s.out)
    ∧ (∀ (now : Dtm) (s : CState) (slot : Nat) (v : Int) (pre post : List ((Nat × Nat) × Trans))
        (k : Nat × Nat) (t : Trans),
        s.openT = pre ++ (k, t) :: post → (∀ p ∈ pre, (p.2).slot ≠ slot) → t.slot = slot →
        (stepEvent now s (Event.sig slot v)).openT
          = pre ++ (k, { t with rssi := some v }) :: post)
    ∧ (∀ (now : Dtm) (out : List Cb) (k : Nat × Nat) (t : Trans) (tsE : TS) (durE berE : Rat)
        (vs : List Int) (vL : Int),
        t.ty = "voice" → vs.getLast? = some vL →
        (stepEvents now ⟨[(k, t)], out⟩
            (vs.map (Event.sig t.slot) ++ [Event.vend tsE t.slot durE berE])).out
          = out ++ [Cb.tend (closeTr now tsE durE berE { t with rssi := some vL })]) := by
  refine ⟨?_, ?_, ?_⟩
  · intro now s slot v
    exact ⟨updFirst_keys slot v s.openT, rfl⟩
  · intro now s slot v pre post k t hdec hpre ht
    rw [stepEvent, hdec, updFirst_decomp slot v k t ht pre post hpre]
  · intro now out k t tsE durE berE vs vL hty hlast
    rw [stepEvents, List.foldl_append]
    have h1 := sig_fold_single now out k t.slot vs vL t rfl hlast
    rw [stepEvents] at h1
    rw [h1, List.foldl_cons, List.foldl_nil, stepEvent]
    have hscan : endScan now tsE durE berE t.slot [(k, { t with rssi := some vL })]
        = some (closeTr now tsE durE berE { t with rssi := some vL }, []) := by
      rw [endScan, if_pos ⟨rfl, hty⟩]
    rw [hscan]

/-- Witness for C7: concrete rssi update and last-sample-wins run. -/
theorem c7_signal_sample_rssi_witness :
    (stepEvent now0 ⟨[((1, 9), c7Open)], []⟩ (Event.sig 1 (-70))).openT
      = [((1, 9), { c7Open with rssi := some (-70) })]
    ∧ (stepEvents now0 ⟨[((1, 9), c7Open)], []⟩
          ([-70, -65].map (Event.sig c7Open.slot) ++ [Event.vend ⟨2024, 1, 1, 1, 0, 0, 0⟩ c7Open.slot 2 1])).out
      = [] ++ [Cb.tend (closeTr now0 ⟨2024, 1, 1, 1, 0, 0, 0⟩ 2 1 { c7Open with rssi := some (-65) })] :=
  ⟨c7_signal_sample_rssi.2.1 now0 ⟨[((1, 9), c7Open)], []⟩ 1 (-70) [] [] (1, 9) c7Open
      rfl (by simp) rfl,
   c7_signal_sample_rssi.2.2 now0 [] (1, 9) c7Open ⟨2024, 1, 1, 1, 0, 0, 0⟩ 2 1 [-70, -65] (-65)
      rfl rfl⟩

/-! ## C3 -/

theorem closedOn_append_one (slot : Nat) (out : List Cb) (c : Cb) :
    closedOn slot (out ++ [c]) = closedOn slot out ++ closedOn slot [c] := by
  simp [closedOn, List.filterMap_append]

theorem closedOn_tstart (slot : Nat) (t : Trans) : closedOn slot [Cb.tstart t] = [] := rfl

theorem closedOn_tdata (slot : Nat) (ts : Dtm) (sl radio : Nat) (dt : DestT) (destId : Nat) :
    closedOn slot [Cb.tdata ts sl radio dt destId] = [] := rfl

theorem closedOn_temerg (slot : Nat) (ts : Dtm) (sl : Nat) :
    closedOn slot [Cb.temerg ts sl] = [] := rfl

theorem closedOn_tend (slot : Nat) (t : Trans) :
    closedOn slot [Cb.tend t] = if t.slot = slot then [t] else [] := by
  by_cases h : t.slot = slot
  · simp [closedOn, h]
  · simp [closedOn, h]

theorem midinv_step (now : Dtm) (slot0 radio0 : Nat) (t0 : Trans) (base : List Trans)
    (ht0 : t0.slot = slot0) (e : Event) (he : avoidsSlot slot0 e) (s : CState)
    (hinv : MidInv slot0 radio0 t0 base s) :
    MidInv slot0 radio0 t0 base (stepEvent now s e) := by
  obtain ⟨hnd, r, hmem, huniq, hout⟩ := hinv
  cases e with
  | vstart ts slot radio dt destId =>
      have hslot : slot ≠ slot0 := he
      refine ⟨dictInsert_keys_nodup _ _ _ hnd, r, ?_, ?_, ?_⟩
      · exact dictInsert_mem_of_ne _ _ _ _
          (fun hEq => hslot (congrArg Prod.fst hEq).symm) _ hmem
      · intro p hp hps
        rcases dictInsert_mem_elim _ _ _ p hp with h2 | h2
        · rw [h2] at hps
          exact absurd hps hslot
        · exact huniq p h2 hps
      · rw [stepEvent]
        simp only [closedOn_append_one, closedOn_tstart, List.append_nil]
        exact hout
  | vend ts slot dur ber =>
      have hslot : slot ≠ slot0 := he
      rw [stepEvent]
      cases hscan : endScan now ts dur ber slot s.openT with
      | none => exact ⟨hnd, r, hmem, huniq, hout⟩
      | some pr =>
          obtain ⟨c, rest⟩ := pr
          have hsub := endScan_rest_sublist now ts dur ber slot s.openT c rest hscan
          refine ⟨(hsub.map Prod.fst).nodup hnd, r, ?_, ?_, ?_⟩
          · exact endScan_mem_rest now ts dur ber slot s.openT c rest hscan _ hmem
              (by rw [ht0]; exact fun h => hslot h.symm)
          · intro p hp hps
            exact huniq p (hsub.subset hp) hps
          · have hcs : c.slot = slot := endScan_emit_slot now ts dur ber slot s.openT c rest hscan
            rw [closedOn_append_one, closedOn_tend,
              if_neg (fun h => hslot (hcs ▸ h)), List.append_nil]
            exact hout
  | sig slot v =>
      rw [stepEvent]
      by_cases hs0 : slot = slot0
      · subst hs0
        have hfm := updFirst_first_match slot v s.openT
          ⟨_, hmem, by rw [ht0]⟩
        rcases hfm with ⟨l1, q, l2, hdec, hl1, hq, hupd⟩
        have hqours : q = ((slot, radio0), { t0 with rssi := r }) :=
          huniq q (hdec ▸ (List.mem_append.mpr (Or.inr (List.mem_cons_self _ _)))) hq
        rw [hupd, hqours]
        refine ⟨?_, some v, ?_, ?_, hout⟩
        · have hkeq := updFirst_keys slot v s.openT
          rw [hupd, hqours] at hkeq
          rw [hkeq]
          exact hnd
        · exact List.mem_append.mpr (Or.inr (List.mem_cons_self _ _))
        · intro p hp hps
          rcases List.mem_append.mp hp with h2 | h2
          · exact absurd hps (hl1 p h2)
          · rcases List.mem_cons.mp h2 with h3 | h3
            · exact h3
            · have hpl : p ∈ s.openT :=
                hdec ▸ (List.mem_append.mpr (Or.inr (List.mem_cons.mpr (Or.inr h3))))
              have hpe := huniq p hpl hps
              have hk2 : ((slot, radio0) : Nat × Nat) ∈ l2.map Prod.fst := by
                have hmm := List.mem_map_of_mem Prod.fst h3
                rw [hpe] at hmm
                exact hmm
              have hkeys := hnd
              rw [hdec, hqours] at hkeys
              simp only [List.map_append, List.map_cons, List.nodup_append,
                List.nodup_cons] at hkeys
              exact absurd hk2 hkeys.2.1.1
      · refine ⟨?_, r, ?_, ?_, hout⟩
        · rw [updFirst_keys]
          exact hnd
        · exact updFirst_mem_of_slot_ne slot v s.openT _ hmem
            (by rw [ht0]; exact fun h => hs0 h.symm)
        · intro p hp hps
          rcases updFirst_mem_elim slot v s.openT p hp with h2 | h2
          · exact huniq p h2 hps
          · rcases h2 with ⟨q, hql, hqs, hpe⟩
            rw [hpe] at hps
            exact absurd (hqs ▸ hps) (fun h => hs0 h)
  | dhead ts slot radio dt destId =>
      refine ⟨hnd, r, hmem, huniq, ?_⟩
      rw [stepEvent]
      simp only [closedOn_append_one, closedOn_tdata, List.append_nil]
      exact hout
  | emerg ts slot =>
      refine ⟨hnd, r, hmem, huniq, ?_⟩
      rw [stepEvent]
      simp only [closedOn_append_one, closedOn_temerg, List.append_nil]
      exact hout

theorem midinv_steps (now : Dtm) (slot0 radio0 : Nat) (t0 : Trans) (base : List Trans)
    (ht0 : t0.slot = slot0) :
    ∀ (mid : List Event) (s : CState), (∀ e ∈ mid, avoidsSlot slot0 e) →
      MidInv slot0 radio0 t0 base s →
      MidInv slot0 radio0 t0 base (stepEvents now s mid) := by
  intro mid
  induction mid with
  | nil => intro s _ h; exact h
  | cons e rest ih =>
      intro s hav h
      exact ih (stepEvent now s e)
        (fun e2 he2 => hav e2 (List.mem_cons.mpr (Or.inr he2)))
        (midinv_step now slot0 radio0 t0 base ht0 e
          (hav e (List.mem_cons_self _ _)) s h)

/-- C3: (1) amended general property — from any state with distinct map
keys and no open transmission on the slot, a VoiceStart followed by
events that neither start nor end a transmission on that slot and then
the first VoiceEnd on that slot emits exactly one new transmission on the
slot, carrying slot/radio/destination/start_time from the start event and
end_time/duration/ber from the end event (rssi is whatever the samples
left); (2) the spec scenario, which the code satisfies: the concrete
header line opens slot 1, radio 2222001, TG 1, and the concrete end line
closes exactly it with duration 5.3 and ber 1.2; (3) the two parsed
timestamps lie 5.5 seconds (5500000 microseconds) apart. -/
theorem c3_voice_start_end_pair :
    (∀ (now : Dtm) (s : CState) (ts0 : TS) (slot0 radio0 : Nat) (dt0 : DestT) (dest0 : Nat)
       (mid : List Event) (tsE : TS) (durE berE : Rat),
       (s.openT.map Prod.fst).Nodup →
       (∀ p ∈ s.openT, (p.2).slot ≠ slot0) →
       (∀ e ∈ mid, avoidsSlot slot0 e) →
       ∃ r, closedOn slot0 (stepEvents now s
              (Event.vstart ts0 slot0 radio0 dt0 dest0 ::
                (mid ++ [Event.vend tsE slot0 durE berE]))).out
          = closedOn slot0 s.out ++
            [⟨"voice", slot0, radio0, dt0, dest0, resolveTs now ts0, r, some berE,
              some (resolveTs now tsE), some durE⟩])
    ∧ runLines now0 [c3Start, c3End] = ⟨[], [Cb.tstart c3Open, Cb.tend c3Closed]⟩
    ∧ dtmMicros ⟨2024, 1, 1, 12, 0, 5, 500000⟩ - dtmMicros ⟨2024, 1, 1, 12, 0, 0, 0⟩
        = 5500000 := by
  refine ⟨?_, by decide, by decide⟩
  intro now s ts0 slot0 radio0 dt0 dest0 mid tsE durE berE hnd hopen hmid
  rw [stepEvents, List.foldl_cons, List.foldl_append, List.foldl_cons, List.foldl_nil]
  have ht0slot : (mkOpen now ts0 slot0 radio0 dt0 dest0).slot = slot0 := rfl
  have hstep1 : MidInv slot0 radio0 (mkOpen now ts0 slot0 radio0 dt0 dest0)
      (closedOn slot0 s.out) (stepEvent now s (Event.vstart ts0 slot0 radio0 dt0 dest0)) := by
    refine ⟨dictInsert_keys_nodup _ _ _ hnd, (mkOpen now ts0 slot0 radio0 dt0 dest0).rssi,
      ?_, ?_, ?_⟩
    · exact dictInsert_mem_self (slot0, radio0) _ s.openT
    · intro p hp hps
      rcases dictInsert_mem_elim _ _ _ p hp with h2 | h2
      · exact h2
      · exact absurd hps (hopen p h2)
    · rw [stepEvent]
      simp only [closedOn_append_one, closedOn_tstart, List.append_nil]
  have hmidinv := midinv_steps now slot0 radio0 (mkOpen now ts0 slot0 radio0 dt0 dest0)
    (closedOn slot0 s.out) ht0slot mid _ hmid hstep1
  rw [stepEvents] at hmidinv
  set X := List.foldl (stepEvent now)
    (stepEvent now s (Event.vstart ts0 slot0 radio0 dt0 dest0)) mid
  obtain ⟨hnd2, r, hmem2, huniq2, hout2⟩ := hmidinv
  refine ⟨r, ?_⟩
  have hfm := endScan_first_match now tsE durE berE slot0 X.openT ⟨_, hmem2, ⟨rfl, rfl⟩⟩
  rcases hfm with ⟨l1, q, l2, hdec, hl1, hq, hscan⟩
  have hqours : q = ((slot0, radio0),
      { mkOpen now ts0 slot0 radio0 dt0 dest0 with rssi := r }) :=
    huniq2 q (hdec ▸ (List.mem_append.mpr (Or.inr (List.mem_cons_self _ _)))) hq.1
  have hstepend : stepEvent now X (Event.vend tsE slot0 durE berE)
      = ⟨l1 ++ l2, X.out ++ [Cb.tend (closeTr now tsE durE berE q.2)]⟩ := by
    rw [stepEvent, hscan]
  rw [hstepend, closedOn_append_one, closedOn_tend, hqours, hout2,
    if_pos (show (closeTr now tsE durE berE
      { mkOpen now ts0 slot0 radio0 dt0 dest0 with rssi := r }).slot = slot0 from rfl)]
  rfl

/-- C3 counterexample to the claim as stated: the line sequence
`[c3Prior, c3Second, c3End]` contains a VoiceStart on (slot 1, radio
2222002) — `c3Second` — followed immediately by a VoiceEnd on slot 1 with
no intervening VoiceStart on that slot, yet the single emitted
Transmission carries radio 1111111 and the start time of the *earlier*
`c3Prior` header (`_handle_voice_end` closes the oldest slot-matching
entry), not the fields of that start event as the claim requires. -/
theorem c3_voice_start_end_pair_cex :
    classifyLine c3Second
      = some (Event.vstart ⟨2024, 1, 1, 12, 0, 0, 0⟩ 1 2222002 DestT.tg 1)
    ∧ classifyLine c3End
      = some (Event.vend ⟨2024, 1, 1, 12, 0, 5, 500⟩ 1 (mkRat 53 10) (mkRat 6 5))
    ∧ (closedAll (runLines now0 [c3Prior, c3Second, c3End]).out).map Trans.radio
      = [1111111]
    ∧ (closedAll (runLines now0 [c3Prior, c3Second, c3End]).out).map Trans.startTime
      = [⟨2024, 1, 1, 11, 59, 50, 0⟩] := by
  refine ⟨by decide, by decide, by decide, by decide⟩

/-- Witness for C3's general conjunct at a concrete pair with one signal
sample in between. -/
theorem c3_voice_start_end_pair_witness :
    ∃ r, closedOn 1 (stepEvents now0 initCState
          (Event.vstart ⟨2024, 1, 1, 12, 0, 0, 0⟩ 1 2222001 DestT.tg 1 ::
            ([Event.sig 1 (-70)] ++
              [Event.vend ⟨2024, 1, 1, 12, 0, 5, 500⟩ 1 (mkRat 53 10) (mkRat 6 5)]))).out
      = closedOn 1 initCState.out ++
        [⟨"voice", 1, 2222001, DestT.tg, 1, resolveTs now0 ⟨2024, 1, 1, 12, 0, 0, 0⟩, r,
          some (mkRat 6 5), some (resolveTs now0 ⟨2024, 1, 1, 12, 0, 5, 500⟩),
          some (mkRat 53 10)⟩] :=
  c3_voice_start_end_pair.1 now0 initCState ⟨2024, 1, 1, 12, 0, 0, 0⟩ 1 2222001 DestT.tg 1
    [Event.sig 1 (-70)] ⟨2024, 1, 1, 12, 0, 5, 500⟩ (mkRat 53 10) (mkRat 6 5)
    (by simp [initCState]) (by simp [initCState])
    (by intro e he
        simp only [List.mem_singleton] at he
        subst he
        trivial)

end EasyDispatch
